import Mathlib

/-!
Verification development for the commerce-chatbot bridge service.

The definitions below are a shallow embedding of the TypeScript sources:

* `mapGet` / `mapSet` / `mapDelete` model the JavaScript `Map` operations on an
  insertion-ordered association list (JS `Map` iterates in insertion order,
  `set` updates in place, `delete` removes the binding).
* `Cache.*` embeds the bounded TTL cache (`src/unnamed/part_001`, class `Cache`).
* `HealthMonitor.*` embeds the health classification (`src/unnamed/part_001`,
  class `HealthMonitor`); JS float thresholds are modelled as rationals.
* `withRetry` embeds the retry executor (`src/unnamed/part_001`, `withRetry`),
  returning both the outcome and the list of backoff delays awaited.
* `ChatService.*` embeds the tool-call orchestration slice of
  `packages/bridge-service/src/services/ChatService.ts`.
-/

/-- Lookup in a JS `Map` modelled as an insertion-ordered association list:
returns the value of the binding whose key equals `k`, if any. -/
def mapGet {β : Type} (l : List (String × β)) (k : String) : Option β :=
  match l.find? (fun p => p.1 == k) with
  | some p => some p.2
  | none => none

/-- JS `Map.delete`: removes the binding for `k` (keeps insertion order). -/
def mapDelete {β : Type} (l : List (String × β)) (k : String) : List (String × β) :=
  l.filter (fun p => !(p.1 == k))

/-- JS `Map.set`: updates an existing binding in place, otherwise appends. -/
def mapSet {β : Type} : List (String × β) → String → β → List (String × β)
  | [], k, v => [(k, v)]
  | p :: t, k, v => if p.1 == k then (k, v) :: t else p :: mapSet t k v

theorem mapGet_nil {β : Type} (k : String) : mapGet ([] : List (String × β)) k = none := rfl

theorem mapGet_cons {β : Type} (p : String × β) (l : List (String × β)) (k : String) :
    mapGet (p :: l) k = if p.1 == k then some p.2 else mapGet l k := by
  simp only [mapGet, List.find?]
  cases h : p.1 == k <;> simp [h]

theorem mapGet_append_right {β : Type} (l₁ l₂ : List (String × β)) (k : String)
    (h : mapGet l₁ k = none) : mapGet (l₁ ++ l₂) k = mapGet l₂ k := by
  induction l₁ with
  | nil => simp
  | cons p t ih =>
    rw [List.cons_append, mapGet_cons]
    rw [mapGet_cons] at h
    cases hp : p.1 == k with
    | false => simp only [hp] at h ⊢; simp only [Bool.false_eq_true, if_false] at h ⊢; exact ih h
    | true => simp [hp] at h

theorem mapGet_mapSet_self {β : Type} (l : List (String × β)) (k : String) (v : β) :
    mapGet (mapSet l k v) k = some v := by
  induction l with
  | nil => simp [mapSet, mapGet_cons]
  | cons p t ih =>
    rw [mapSet]
    by_cases hp : p.1 == k
    · rw [if_pos hp, mapGet_cons]; simp
    · rw [if_neg hp, mapGet_cons]
      simp only [hp, Bool.false_eq_true, if_false]
      exact ih

theorem mapGet_mapSet_ne {β : Type} (l : List (String × β)) (k k' : String) (v : β)
    (h : k' ≠ k) : mapGet (mapSet l k v) k' = mapGet l k' := by
  have hkk : ¬ k = k' := fun e => h e.symm
  induction l with
  | nil =>
    simp only [mapSet, mapGet_cons, mapGet_nil]
    have : (k == k') = false := by simp [hkk]
    simp [this]
  | cons p t ih =>
    rw [mapSet]
    by_cases hp : p.1 == k
    · rw [if_pos hp, mapGet_cons, mapGet_cons]
      have hpk : p.1 = k := by simpa using hp
      have h1 : (k == k') = false := by simp [hkk]
      have h2 : (p.1 == k') = false := by simp [hpk, hkk]
      simp [h1, h2]
    · rw [if_neg hp, mapGet_cons, mapGet_cons]
      by_cases hq : p.1 == k'
      · simp [hq]
      · simp only [hq, Bool.false_eq_true, if_false]
        exact ih

theorem mapGet_mapDelete_self {β : Type} (l : List (String × β)) (k : String) :
    mapGet (mapDelete l k) k = none := by
  unfold mapDelete
  induction l with
  | nil => rfl
  | cons p t ih =>
    rw [List.filter_cons]
    cases hp : p.1 == k with
    | true => simpa [hp] using ih
    | false =>
      simp only [hp, Bool.not_false, if_true]
      rw [mapGet_cons, hp]
      simpa using ih

theorem mapGet_mapDelete_ne {β : Type} (l : List (String × β)) (k k' : String)
    (h : k' ≠ k) : mapGet (mapDelete l k) k' = mapGet l k' := by
  unfold mapDelete
  induction l with
  | nil => rfl
  | cons p t ih =>
    rw [List.filter_cons]
    cases hp : p.1 == k with
    | true =>
      have hpk : p.1 = k := by simpa using hp
      have h2 : (p.1 == k') = false := by
        have : ¬ k = k' := fun e => h e.symm
        simp [hpk, this]
      simp only [hp, Bool.not_true, if_false]
      rw [mapGet_cons, h2]
      simpa using ih
    | false =>
      simp only [hp, Bool.not_false, if_true]
      rw [mapGet_cons, mapGet_cons]
      by_cases hq : p.1 == k'
      · simp [hq]
      · simp only [hq, Bool.false_eq_true, if_false]
        exact ih

/-- Keys of an association list. -/
def mapKeys {β : Type} (l : List (String × β)) : List String := l.map Prod.fst

theorem mapKeys_mapSet {β : Type} (l : List (String × β)) (k : String) (v : β) :
    mapKeys (mapSet l k v) = mapKeys l ∨
      (k ∉ mapKeys l ∧ mapKeys (mapSet l k v) = mapKeys l ++ [k]) := by
  induction l with
  | nil => right; exact ⟨by simp [mapKeys], rfl⟩
  | cons p t ih =>
    rw [mapSet]
    by_cases hp : p.1 == k
    · left
      have hpk : p.1 = k := by simpa using hp
      simp [mapKeys, if_pos hp, hpk]
    · rw [if_neg hp]
      have hne : k ≠ p.1 := fun e => hp (by simp [e])
      rcases ih with h | ⟨hk, h⟩
      · left; simp only [mapKeys, List.map_cons] at h ⊢; rw [h]
      · right
        constructor
        · simp only [mapKeys, List.map_cons, List.mem_cons]
          rintro (e | e)
          · exact hne e
          · exact hk e
        · simp only [mapKeys, List.map_cons] at h ⊢; rw [h]; rfl

theorem count_mapKeys_mapSet_le {β : Type} (l : List (String × β)) (k : String) (v : β)
    (c : String) (h : (mapKeys l).count c ≤ 1) :
    (mapKeys (mapSet l k v)).count c ≤ 1 := by
  rcases mapKeys_mapSet l k v with he | ⟨hk, he⟩
  · rw [he]; exact h
  · rw [he, List.count_append]
    by_cases hc : k = c
    · subst hc
      have : (mapKeys l).count k = 0 := List.count_eq_zero.mpr hk
      simp [this, List.count_singleton]
    · have : List.count c [k] = 0 := by
        have : ¬ c = k := fun e => hc e.symm
        simp [List.count_eq_zero, this]
      omega

theorem count_mapKeys_mapDelete_le {β : Type} (l : List (String × β)) (k c : String) :
    (mapKeys (mapDelete l k)).count c ≤ (mapKeys l).count c := by
  have hsub : List.Sublist (mapDelete l k) l := List.filter_sublist l
  exact (hsub.map Prod.fst).count_le c

/-- A stored cache entry: the value together with its absolute expiry time,
mirroring `CacheEntry<T> { value, expiresAt }` in `src/unnamed/part_001`. -/
structure CacheEntry (T : Type) where
  value : T
  expiresAt : Nat
deriving DecidableEq, Repr

/-- Cache configuration, mirroring `CacheConfig { ttl, maxSize }`; the
constructor default `maxSize || 1000` is applied by the caller. -/
structure CacheConfig where
  ttl : Nat
  maxSize : Nat
deriving DecidableEq, Repr

namespace Cache

/-- The `entries.reduce(...)` pass of `Cache.set`: starting from the first
entry, keep the entry with the strictly smaller `expiresAt` (ties keep the
earlier entry, as in the source's `current < oldest` comparison). -/
def oldestEntry {T : Type} (e : String × CacheEntry T) :
    List (String × CacheEntry T) → String × CacheEntry T
  | [] => e
  | c :: cs => oldestEntry (if c.2.expiresAt < e.2.expiresAt then c else e) cs

/-- `Cache.set(key, value)` from `src/unnamed/part_001` lines 198-214: when at
capacity, delete the entry with the nearest expiry (first such entry on ties),
then insert the new entry with `expiresAt = now + ttl`. -/
def set {T : Type} (cfg : CacheConfig) (entries : List (String × CacheEntry T))
    (now : Nat) (key : String) (value : T) : List (String × CacheEntry T) :=
  let entries1 :=
    if cfg.maxSize ≤ entries.length then
      match entries with
      | [] => entries
      | e :: es => mapDelete entries (oldestEntry e es).1
    else entries
  mapSet entries1 key ⟨value, now + cfg.ttl⟩

/-- `Cache.get(key)` from `src/unnamed/part_001` lines 216-231: returns the
value if present and not expired; if `now > expiresAt` the entry is lazily
deleted and the lookup reports a miss. Returns the value (if any) together
with the possibly-updated entry list. -/
def get {T : Type} (entries : List (String × CacheEntry T)) (now : Nat)
    (key : String) : Option T × List (String × CacheEntry T) :=
  match mapGet entries key with
  | none => (none, entries)
  | some e =>
    if e.expiresAt < now then (none, mapDelete entries key)
    else (some e.value, entries)

theorem oldestEntry_mem {T : Type} (e : String × CacheEntry T)
    (es : List (String × CacheEntry T)) :
    oldestEntry e es = e ∨ oldestEntry e es ∈ es := by
  induction es generalizing e with
  | nil => left; rfl
  | cons c cs ih =>
    rw [oldestEntry]
    rcases ih (if c.2.expiresAt < e.2.expiresAt then c else e) with h | h
    · by_cases hc : c.2.expiresAt < e.2.expiresAt
      · right; rw [h, if_pos hc]; exact List.mem_cons_self c cs
      · left; rw [h, if_neg hc]
    · right; exact List.mem_cons_of_mem c h

theorem oldestEntry_le {T : Type} (e : String × CacheEntry T)
    (es : List (String × CacheEntry T)) :
    ∀ x ∈ e :: es, (oldestEntry e es).2.expiresAt ≤ x.2.expiresAt := by
  induction es generalizing e with
  | nil =>
    intro x hx
    rcases List.mem_cons.mp hx with h | h
    · subst h; rfl
    · cases h
  | cons c cs ih =>
    intro x hx
    rw [oldestEntry]
    have hmin : (if c.2.expiresAt < e.2.expiresAt then c else e).2.expiresAt ≤ e.2.expiresAt ∧
        (if c.2.expiresAt < e.2.expiresAt then c else e).2.expiresAt ≤ c.2.expiresAt := by
      by_cases hc : c.2.expiresAt < e.2.expiresAt
      · rw [if_pos hc]; exact ⟨Nat.le_of_lt hc, Nat.le_refl _⟩
      · rw [if_neg hc]; exact ⟨Nat.le_refl _, Nat.le_of_not_lt hc⟩
    rcases List.mem_cons.mp hx with h | h
    · subst h
      exact Nat.le_trans
        (ih _ _ (List.mem_cons_self _ _)) hmin.1
    · rcases List.mem_cons.mp h with h2 | h2
      · subst h2
        exact Nat.le_trans (ih _ _ (List.mem_cons_self _ _)) hmin.2
      · exact ih _ x (List.mem_cons_of_mem _ h2)

end Cache

/-- Tri-state health signal of the `HealthMonitor`. -/
inductive HStatus where
  | healthy
  | degraded
  | unhealthy
deriving DecidableEq, Repr

namespace HealthMonitor

/-- `determineStatus(errorRate, cacheHitRate)` from `src/unnamed/part_001`
lines 62-70; the JS float literals 0.1, 0.3, 0.05, 0.5 are embedded as the
rationals they denote. -/
def determineStatus (errorRate cacheHitRate : ℚ) : HStatus :=
  if errorRate ≥ 1/10 ∨ cacheHitRate < 3/10 then HStatus.unhealthy
  else if errorRate ≥ 1/20 ∨ cacheHitRate < 1/2 then HStatus.degraded
  else HStatus.healthy

/-- Error rate computed by `checkHealth`: `requestCount > 0 ? errorCount /
requestCount : 0`. -/
def errorRateOf (requestCount errorCount : Nat) : ℚ :=
  if requestCount > 0 then (errorCount : ℚ) / (requestCount : ℚ) else 0

/-- Cache hit rate computed by `checkHealth`: `(hits + misses) > 0 ? hits /
(hits + misses) : 1`. -/
def cacheHitRateOf (cacheHits cacheMisses : Nat) : ℚ :=
  if cacheHits + cacheMisses > 0 then
    (cacheHits : ℚ) / ((cacheHits : ℚ) + (cacheMisses : ℚ))
  else 1

/-- The classification performed by one `checkHealth` tick
(`src/unnamed/part_001` lines 34-60) on the window counters accumulated since
the previous tick. -/
def checkHealth (requestCount errorCount cacheHits cacheMisses : Nat) : HStatus :=
  determineStatus (errorRateOf requestCount errorCount)
    (cacheHitRateOf cacheHits cacheMisses)

end HealthMonitor

/-- The error value an operation can fail with, as observed by the retry
utilities: whether it is an Axios error and, if so, its optional HTTP response
status (`error.response?.status`). -/
structure OpError where
  isAxiosError : Bool
  status : Option Nat
deriving DecidableEq, Repr

/-- Retry policy, mirroring `Required<RetryConfig>` from
`src/unnamed/part_001`. -/
structure RetryConfigR where
  maxRetries : Nat
  initialDelay : Nat
  maxDelay : Nat
  backoffFactor : Nat
  retryableStatuses : List Nat
deriving DecidableEq, Repr

/-- `DEFAULT_RETRY_CONFIG` from `src/unnamed/part_001` lines 120-126. -/
def DEFAULT_RETRY_CONFIG : RetryConfigR :=
  { maxRetries := 2
    initialDelay := 1000
    maxDelay := 5000
    backoffFactor := 2
    retryableStatuses := [408, 429, 500, 502, 503, 504] }

/-- Outcome of `withRetry`: either the operation's success value, or a
`RetryError` thrown after the final attempt, wrapping the last error. -/
inductive RetryOutcome (T : Type) where
  | success (v : T)
  | exhausted (last : OpError)
deriving DecidableEq, Repr

/-- The retry loop of `withRetry` (`src/unnamed/part_001` lines 140-162).
`attempt` is the current attempt index, `remaining` the number of attempts
still allowed after this one (`maxRetries - attempt`), `delay` the current
backoff delay. Returns the outcome together with the list of delays awaited
between attempts, in order. Note the loop catches every error: it never
consults `isRetryableError`. -/
def withRetryGo {T : Type} (op : Nat → Except OpError T) (factor maxDelay : Nat) :
    Nat → Nat → Nat → RetryOutcome T × List Nat
  | attempt, remaining, delay =>
    match op attempt with
    | Except.ok v => (RetryOutcome.success v, [])
    | Except.error e =>
      match remaining with
      | 0 => (RetryOutcome.exhausted e, [])
      | r + 1 =>
        let rest := withRetryGo op factor maxDelay (attempt + 1) r
          (min (delay * factor) maxDelay)
        (rest.1, delay :: rest.2)

/-- `withRetry(operation, config)` from `src/unnamed/part_001` lines 128-166,
with the operation modelled as a function from the attempt index to that
attempt's result, and the awaited backoff delays returned alongside the
outcome. -/
def withRetry {T : Type} (op : Nat → Except OpError T) (cfg : RetryConfigR) :
    RetryOutcome T × List Nat :=
  withRetryGo op cfg.backoffFactor cfg.maxDelay 0 cfg.maxRetries cfg.initialDelay

/-- `isRetryableError` from `src/unnamed/part_001` lines 168-174. It is
defined in the source but never consulted by `withRetry`. -/
def isRetryableError (e : OpError) : Bool :=
  if e.isAxiosError then
    match e.status with
    | some s => DEFAULT_RETRY_CONFIG.retryableStatuses.contains s
    | none => false
  else false

/-- A shipping mode descriptor (code, name) as cached per conversation. -/
structure DeliveryMode where
  code : String
  name : String
deriving DecidableEq, Repr

/-- Check whether `needle` occurs as a contiguous run inside `hay`. -/
def listInfixCheck (needle : List Char) : List Char → Bool
  | [] => needle == []
  | c :: t => needle.isPrefixOf (c :: t) || listInfixCheck needle t

/-- JS `String.prototype.includes`: substring test. -/
def strIncludes (hay needle : String) : Bool :=
  listInfixCheck needle.data hay.data

/-- JS `String.prototype.toLowerCase` (character-wise lowercasing of the
ASCII range, which covers every string the orchestration compares). -/
def strLower (s : String) : String :=
  ⟨s.data.map Char.toLower⟩

/-- JS `String.prototype.startsWith`. -/
def strStartsWith (s t : String) : Bool :=
  t.data.isPrefixOf s.data

/-- JS `s.split('-')[0]`: the token before the first `-` (the whole string
when no `-` occurs). -/
def headToken (s : String) : String :=
  ⟨s.data.takeWhile (fun c => !(c == '-'))⟩

/-- Abstraction of a tool result's `content` payload as inspected by the
bridge service: its string form (`typeof content === 'string' ? content :
JSON.stringify(content)`, used for the 401 scan), the cart id extracted by
the cart-creation parsing chain (`cartId || code || guid [|| id]`; a falsy
extraction — `undefined` or `''` — is modelled as `none`, matching the
truthiness tests `if (newCartId)` and `if (!cartId)` applied to it), and the
parsed `deliveryModes` array when one is present. -/
structure MCPContent where
  asStr : String
  cartIdField : Option String := none
  deliveryModesField : Option (List DeliveryMode) := none
deriving DecidableEq, Repr

/-- `MCPToolResult` as resolved by `MCPClient.callTool`; `content = none`
models an undefined/falsy `result.content`. `callTool` never throws: it
catches transport errors and resolves with `isError: true`. -/
structure MCPResult where
  content : Option MCPContent := none
  isError : Bool := false
deriving DecidableEq, Repr

/-- The model-supplied arguments of a tool call, restricted to the fields the
orchestration logic inspects. -/
structure ToolInput where
  cartId : Option String := none
  productCode : Option String := none
  quantity : Option Nat := none
  deliveryModeCode : Option String := none
deriving DecidableEq, Repr

/-- A tool invocation requested by the completion provider. -/
structure LLMToolCall where
  id : String
  name : String
  input : ToolInput := {}
deriving DecidableEq, Repr

/-- A call issued to the MCP server, restricted to the argument fields the
orchestration logic computes; other fields are passed through verbatim from
the model's input and are omitted. -/
structure MCPCall where
  name : String
  cartId : Option String := none
  productCode : Option String := none
  quantity : Option Nat := none
  deliveryModeCode : Option String := none
deriving DecidableEq, Repr

/-- A pushed tool result entry of `executeMCPTools`: either a normal entry
`{tool_use_id, content, products}`, the fixed re-auth replacement entry, or a
catch-path entry `{tool_use_id, error}`. -/
inductive ExecPayload where
  | normal (content : Option MCPContent)
  | reauth
  | exn (msg : String)
deriving DecidableEq, Repr

/-- One entry of the `results` array built by `executeMCPTools`. -/
structure ExecResult where
  tool_use_id : String
  payload : ExecPayload
deriving DecidableEq, Repr

/-- Truthiness of `r.error` on a pushed tool result: only catch-path entries
carry an `error` field. -/
def hasError (r : ExecResult) : Bool :=
  match r.payload with
  | ExecPayload.exn _ => true
  | _ => false

/-- JS truthiness of an optional string (`undefined` and `''` are falsy). -/
def jsTruthyStr : Option String → Bool
  | none => false
  | some s => !(s == "")

/-- JS `a || b` on optional strings. -/
def jsOrStr (a b : Option String) : Option String :=
  if jsTruthyStr a then a else b

/-- JS `quantity || 1` for the add-to-cart quantity (0 is falsy). -/
def jsOrOne : Option Nat → Nat
  | none => 1
  | some q => if q = 0 then 1 else q

namespace ChatService

/-- The three per-conversation maps owned by `ChatService`
(`cartsByConversation`, `deliveryModesByConversation`,
`lastOrderCodeByConversation`). -/
structure ChatState where
  carts : List (String × String) := []
  modes : List (String × List DeliveryMode) := []
  lastOrder : List (String × String) := []
deriving DecidableEq, Repr

/-- The dispatch alternatives of the `switch (toolCall.name)` in
`executeMCPTools`. -/
inductive ToolKind where
  | placeOrder
  | createCart
  | getCart
  | addToCart
  | updateCartEntry
  | removeFromCart
  | setDeliveryAddress
  | getDeliveryModes
  | setDeliveryMode
  | setPaymentDetails
  | passthrough
  | unknownTool
deriving DecidableEq, Repr

/-- Tool names dispatched directly to the MCP client with verbatim
arguments. -/
def passthroughNames : List String :=
  ["search-products", "search-products-advanced", "get-product-details",
   "check-product-availability", "get-categories", "get-products-by-category",
   "get-promotions", "get-product-reviews", "get-product-suggestions",
   "get-order-status", "get-order-history"]

/-- Classify a tool name as in the `switch` of `executeMCPTools`. -/
def toolKind (name : String) : ToolKind :=
  if name = "place-order" then ToolKind.placeOrder
  else if name = "create-cart" then ToolKind.createCart
  else if name = "get-cart" then ToolKind.getCart
  else if name = "add-to-cart" then ToolKind.addToCart
  else if name = "update-cart-entry" then ToolKind.updateCartEntry
  else if name = "remove-from-cart" then ToolKind.removeFromCart
  else if name = "set-delivery-address" then ToolKind.setDeliveryAddress
  else if name = "get-delivery-modes" then ToolKind.getDeliveryModes
  else if name = "set-delivery-mode" then ToolKind.setDeliveryMode
  else if name = "set-payment-details" then ToolKind.setPaymentDetails
  else if passthroughNames.contains name then ToolKind.passthrough
  else ToolKind.unknownTool

/-- `storeDeliveryModes` (ChatService.ts lines 1377-1402): for each result
with truthy content whose parsed payload carries a `deliveryModes` array,
store that array as the conversation's cached shipping modes. JSON parsing is
abstracted into the `deliveryModesField` observation. -/
def storeDeliveryModes (conversationId : String)
    (modes : List (String × List DeliveryMode))
    (contents : List (Option MCPContent)) : List (String × List DeliveryMode) :=
  contents.foldl (fun m oc =>
    match oc with
    | some c =>
      match c.deliveryModesField with
      | some dms => mapSet m conversationId dms
      | none => m
    | none => m) modes

/-- `fixDeliveryModeCode` (ChatService.ts lines 1404-1439): exact match on the
cached codes, else fuzzy match of the token before the first `-` of the
lowercased requested code against lowercased codes (by usable start) and
names (by substring), else the first cached mode. -/
def fixDeliveryModeCode (modes : List (String × List DeliveryMode))
    (conversationId : String) (requestedCode : String) : String :=
  match mapGet modes conversationId with
  | none => requestedCode
  | some deliveryModes =>
    match deliveryModes with
    | [] => requestedCode
    | m0 :: _ =>
      if (deliveryModes.find? (fun m => m.code == requestedCode)).isSome then
        requestedCode
      else
        let requestedLower := strLower requestedCode
        let tok := headToken requestedLower
        match deliveryModes.find? (fun m =>
            strStartsWith (strLower m.code) tok || strIncludes (strLower m.name) tok) with
        | some m => m.code
        | none => m0.code

/-- The fixed user-facing message of the re-auth payload. -/
def sessionExpiredMessage : String :=
  "Your session has expired. Please log in again to continue."

/-- String form of the fixed re-auth payload pushed in place of a 401-flagged
tool result. -/
def reauthStr : String :=
  "\x7b\"error\":\"Authentication failed\",\"message\":\"Your session has expired. Please log in again to continue.\",\"requiresReauth\":true\x7d"

/-- The re-auth payload as replayed content (it parses to an object with no
`deliveryModes` and no cart id). -/
def reauthContent : MCPContent := { asStr := reauthStr }

/-- Synthetic result returned by the `get-cart` case when no cart exists. -/
def emptyCartResult : MCPResult :=
  { content := some { asStr := "\x7b\"message\":\"Your cart is currently empty. Start shopping by searching for products!\",\"isEmpty\":true,\"totalItems\":0\x7d" }
    isError := false }

/-- Synthetic error result returned by the `set-delivery-address` case when
no cart exists for the conversation. -/
def noCartAddressResult : MCPResult :=
  { content := some { asStr := "\x7b\"error\":\"No cart exists\",\"message\":\"You need to create a cart and add items before setting a delivery address. Please start by adding products to your cart.\"\x7d" }
    isError := true }

/-- The 401/Unauthorized signature scan on a tool result's stringified
content (ChatService.ts line 1340). -/
def isAuthFailure (r : MCPResult) : Bool :=
  match r.content with
  | some c => strIncludes c.asStr "401" || strIncludes c.asStr "Unauthorized"
  | none => false

/-- Lines 1338-1364: an error-flagged result matching the 401 signature is
replaced by the fixed re-auth entry; otherwise the result's content is pushed
unchanged. -/
def finishToolResult (callId : String) (r : MCPResult) : ExecResult :=
  if r.isError && isAuthFailure r then ⟨callId, ExecPayload.reauth⟩
  else ⟨callId, ExecPayload.normal r.content⟩

/-- Output of one iteration of the `executeMCPTools` loop: updated maps, next
oracle index, MCP calls issued, and the pushed result entry. -/
structure StepOut where
  st : ChatState
  ctr : Nat
  calls : List MCPCall
  res : ExecResult
deriving DecidableEq, Repr

/-- One iteration of the `executeMCPTools` loop (ChatService.ts lines
945-1372) for tool call `tc` of conversation `conversationId`. The MCP
backend is modelled by `oracle`, giving the result of the n-th MCP call of
the turn; `ctr` is the index of the next call. -/
def execTool (oracle : Nat → MCPResult) (conversationId : String)
    (st : ChatState) (ctr : Nat) (tc : LLMToolCall) : StepOut :=
  match toolKind tc.name with
  | ToolKind.placeOrder =>
    let orderCartId := jsOrStr tc.input.cartId (mapGet st.carts conversationId)
    let r := oracle ctr
    let st1 := if jsTruthyStr orderCartId then
        { st with carts := mapDelete st.carts conversationId } else st
    ⟨st1, ctr + 1, [{ name := "place-order", cartId := orderCartId }],
      finishToolResult tc.id r⟩
  | ToolKind.createCart =>
    let r := oracle ctr
    let st1 :=
      match r.content, r.isError with
      | some c, false =>
        match c.cartIdField with
        | some newCartId =>
          { st with carts := mapSet st.carts conversationId newCartId }
        | none => st
      | _, _ => st
    ⟨st1, ctr + 1, [{ name := "create-cart" }], finishToolResult tc.id r⟩
  | ToolKind.getCart =>
    let getCartId := jsOrStr tc.input.cartId (mapGet st.carts conversationId)
    if jsTruthyStr getCartId then
      let r := oracle ctr
      ⟨st, ctr + 1, [{ name := "get-cart", cartId := getCartId }],
        finishToolResult tc.id r⟩
    else
      ⟨st, ctr, [], finishToolResult tc.id emptyCartResult⟩
  | ToolKind.addToCart =>
    let cartId0 := jsOrStr tc.input.cartId (mapGet st.carts conversationId)
    if jsTruthyStr cartId0 then
      let r := oracle ctr
      ⟨st, ctr + 1,
        [{ name := "add-to-cart", cartId := cartId0,
           productCode := tc.input.productCode,
           quantity := some (jsOrOne tc.input.quantity) }],
        finishToolResult tc.id r⟩
    else
      let cartResult := oracle ctr
      let newId :=
        match cartResult.content with
        | some c => c.cartIdField
        | none => none
      match newId with
      | some cid =>
        let st1 := { st with carts := mapSet st.carts conversationId cid }
        let r := oracle (ctr + 1)
        ⟨st1, ctr + 2,
          [{ name := "create-cart" },
           { name := "add-to-cart", cartId := some cid,
             productCode := tc.input.productCode,
             quantity := some (jsOrOne tc.input.quantity) }],
          finishToolResult tc.id r⟩
      | none =>
        ⟨st, ctr + 1, [{ name := "create-cart" }],
          ⟨tc.id, ExecPayload.exn "Failed to extract cartId from cart creation response"⟩⟩
  | ToolKind.updateCartEntry =>
    let updateCartId := jsOrStr tc.input.cartId (mapGet st.carts conversationId)
    let r := oracle ctr
    ⟨st, ctr + 1, [{ name := "update-cart-entry", cartId := updateCartId }],
      finishToolResult tc.id r⟩
  | ToolKind.removeFromCart =>
    let removeCartId := jsOrStr tc.input.cartId (mapGet st.carts conversationId)
    let r := oracle ctr
    ⟨st, ctr + 1, [{ name := "remove-from-cart", cartId := removeCartId }],
      finishToolResult tc.id r⟩
  | ToolKind.setDeliveryAddress =>
    let setAddrCartId := mapGet st.carts conversationId
    if jsTruthyStr setAddrCartId then
      let r := oracle ctr
      ⟨st, ctr + 1, [{ name := "set-delivery-address", cartId := setAddrCartId }],
        finishToolResult tc.id r⟩
    else
      ⟨st, ctr, [], finishToolResult tc.id noCartAddressResult⟩
  | ToolKind.getDeliveryModes =>
    let getModeCartId := mapGet st.carts conversationId
    let r := oracle ctr
    let st1 := if r.isError then st
      else { st with
        modes := storeDeliveryModes conversationId st.modes [r.content] }
    ⟨st1, ctr + 1, [{ name := "get-delivery-modes", cartId := getModeCartId }],
      finishToolResult tc.id r⟩
  | ToolKind.setDeliveryMode =>
    let setModeCartId := mapGet st.carts conversationId
    let requestedCode := (tc.input.deliveryModeCode).getD ""
    let correctedCode := fixDeliveryModeCode st.modes conversationId requestedCode
    let r := oracle ctr
    ⟨st, ctr + 1,
      [{ name := "set-delivery-mode", cartId := setModeCartId,
         deliveryModeCode := some correctedCode }],
      finishToolResult tc.id r⟩
  | ToolKind.setPaymentDetails =>
    let setPaymentCartId := mapGet st.carts conversationId
    let r := oracle ctr
    ⟨st, ctr + 1, [{ name := "set-payment-details", cartId := setPaymentCartId }],
      finishToolResult tc.id r⟩
  | ToolKind.passthrough =>
    let r := oracle ctr
    ⟨st, ctr + 1, [{ name := tc.name }], finishToolResult tc.id r⟩
  | ToolKind.unknownTool =>
    ⟨st, ctr, [], ⟨tc.id, ExecPayload.normal none⟩⟩

/-- Accumulated output of `executeMCPTools` over a list of tool calls. -/
structure ExecOut where
  st : ChatState
  ctr : Nat
  calls : List MCPCall
  results : List ExecResult
deriving DecidableEq, Repr

/-- `executeMCPTools` (ChatService.ts lines 945-1375): execute the model's
tool calls in order, threading the conversation maps and the oracle index. -/
def executeMCPTools (oracle : Nat → MCPResult) (conversationId : String) :
    ChatState → Nat → List LLMToolCall → ExecOut
  | st, ctr, [] => ⟨st, ctr, [], []⟩
  | st, ctr, tc :: rest =>
    let s := execTool oracle conversationId st ctr tc
    let r := executeMCPTools oracle conversationId s.st s.ctr rest
    ⟨r.st, r.ctr, s.calls ++ r.calls, s.res :: r.results⟩

/-- A completion-provider response: final text plus requested tool calls. -/
structure AIResponse where
  content : String
  toolCalls : List LLMToolCall
deriving DecidableEq, Repr

/-- Mutable turn state shared by the auto-chaining blocks of
`handleChatMessage` (`aiResponse.toolCalls`, `toolResults`, `toolsUsed`, the
conversation maps, the oracle index, and the trace of MCP calls). -/
structure TurnAcc where
  toolCalls : List LLMToolCall
  results : List ExecResult
  toolsUsed : List String
  st : ChatState
  ctr : Nat
  calls : List MCPCall
deriving DecidableEq, Repr

/-- Model of the `uuidv4()` id given to the auto-triggered `place-order`
call. -/
def autoPlaceOrderId : String := "auto-place-order-call"

/-- Model of the `uuidv4()` id given to the auto-triggered
`get-delivery-modes` call. -/
def autoDeliveryModesId : String := "auto-get-delivery-modes-call"

/-- The content a pushed result entry exposes when replayed through
`storeDeliveryModes` (line 295): a normal entry exposes its content, the
re-auth entry its fixed JSON string, a catch-path entry has no content. -/
def resultContent (r : ExecResult) : Option MCPContent :=
  match r.payload with
  | ExecPayload.normal c => c
  | ExecPayload.reauth => some reauthContent
  | ExecPayload.exn _ => none

/-- Lines 242-268 of `handleChatMessage`: after a successful
`set-payment-details` result, auto-trigger `place-order`. -/
def paymentChainStage (oracle : Nat → MCPResult) (conversationId : String)
    (acc : TurnAcc) : TurnAcc :=
  if acc.toolsUsed.contains "set-payment-details" then
    match acc.results.find? (fun r =>
        acc.toolCalls.any (fun tc =>
          tc.id == r.tool_use_id && tc.name == "set-payment-details")) with
    | some paymentResult =>
      if hasError paymentResult then acc
      else
        let placeOrderCall : LLMToolCall :=
          { id := autoPlaceOrderId, name := "place-order" }
        let e := executeMCPTools oracle conversationId acc.st acc.ctr [placeOrderCall]
        { toolCalls := acc.toolCalls ++ [placeOrderCall]
          results := acc.results ++ e.results
          toolsUsed := acc.toolsUsed ++ ["place-order"]
          st := e.st, ctr := e.ctr, calls := acc.calls ++ e.calls }
    | none => acc
  else acc

/-- Lines 270-299 of `handleChatMessage`: after a successful
`set-delivery-address` result, auto-trigger `get-delivery-modes` and store
the returned delivery modes for the conversation. -/
def addressChainStage (oracle : Nat → MCPResult) (conversationId : String)
    (acc : TurnAcc) : TurnAcc :=
  if acc.toolsUsed.contains "set-delivery-address" then
    match acc.results.find? (fun r =>
        acc.toolCalls.any (fun tc =>
          tc.id == r.tool_use_id && tc.name == "set-delivery-address")) with
    | some addressResult =>
      if hasError addressResult then acc
      else
        let deliveryModesCall : LLMToolCall :=
          { id := autoDeliveryModesId, name := "get-delivery-modes" }
        let e := executeMCPTools oracle conversationId acc.st acc.ctr [deliveryModesCall]
        let st1 := { e.st with
          modes := storeDeliveryModes conversationId e.st.modes
            (e.results.map resultContent) }
        { toolCalls := acc.toolCalls ++ [deliveryModesCall]
          results := acc.results ++ e.results
          toolsUsed := acc.toolsUsed ++ ["get-delivery-modes"]
          st := st1, ctr := e.ctr, calls := acc.calls ++ e.calls }
    | none => acc
  else acc

/-- What a chat turn returns and leaves behind: the reply text, the tools
used, the final (possibly chain-extended) tool-call list, the final
conversation maps, and the trace of MCP calls and pushed results. -/
structure TurnOutput where
  message : String
  toolsUsed : List String
  toolCalls : List LLMToolCall
  st : ChatState
  ctr : Nat
  calls : List MCPCall
  results : List ExecResult
deriving DecidableEq, Repr

/-- Fallback used when the provider returns empty text (line 342). -/
def processingPlaceholder : String := "Processing your request..."

/-- The tool-orchestration slice of `handleChatMessage` (ChatService.ts lines
221-374): `ai` is the first completion-provider response; `provider2` models
the second provider call, mapping the updated tool calls and results to the
final response (its own tool calls, if any, are not executed, as in the
source). Message-history bookkeeping, system-prompt assembly and order-code
tracking do not affect the orchestration state and are omitted. -/
def handleChatMessage (oracle : Nat → MCPResult)
    (provider2 : List LLMToolCall → List ExecResult → AIResponse)
    (conversationId : String) (st : ChatState) (ai : AIResponse) : TurnOutput :=
  match ai.toolCalls with
  | [] =>
    { message := if ai.content = "" then processingPlaceholder else ai.content
      toolsUsed := [], toolCalls := [], st := st, ctr := 0, calls := []
      results := [] }
  | _ :: _ =>
    let e := executeMCPTools oracle conversationId st 0 ai.toolCalls
    let acc1 : TurnAcc :=
      { toolCalls := ai.toolCalls, results := e.results
        toolsUsed := ai.toolCalls.map LLMToolCall.name
        st := e.st, ctr := e.ctr, calls := e.calls }
    let acc2 := paymentChainStage oracle conversationId acc1
    let acc3 := addressChainStage oracle conversationId acc2
    let ai2 := provider2 acc3.toolCalls acc3.results
    { message := if ai2.content = "" then processingPlaceholder else ai2.content
      toolsUsed := acc3.toolsUsed, toolCalls := acc3.toolCalls
      st := acc3.st, ctr := acc3.ctr, calls := acc3.calls
      results := acc3.results }

end ChatService

/-! ### Additional map lemmas used by the cache claims -/

theorem mapSet_eq_append {β : Type} (l : List (String × β)) (k : String) (v : β)
    (h : mapGet l k = none) : mapSet l k v = l ++ [(k, v)] := by
  induction l with
  | nil => rfl
  | cons p t ih =>
    rw [mapGet_cons] at h
    cases hp : p.1 == k with
    | true => simp [hp] at h
    | false =>
      simp only [hp, Bool.false_eq_true, if_false] at h
      rw [mapSet, if_neg (by simp [hp]), ih h]
      rfl

theorem mapGet_filter_none {β : Type} (l : List (String × β)) (k : String)
    (q : String × β → Bool) (h : mapGet l k = none) :
    mapGet (l.filter q) k = none := by
  induction l with
  | nil => rfl
  | cons p t ih =>
    rw [mapGet_cons] at h
    cases hp : p.1 == k with
    | true => simp [hp] at h
    | false =>
      simp only [hp, Bool.false_eq_true, if_false] at h
      rw [List.filter_cons]
      cases hq : q p with
      | true =>
        simp only [if_true]
        rw [mapGet_cons, hp]
        simp only [Bool.false_eq_true, if_false]
        exact ih h
      | false =>
        simp only [Bool.false_eq_true, if_false]
        exact ih h

theorem filter_key_singleton {β : Type} (l : List (String × β)) (x : String × β)
    (hx : x ∈ l) (hnd : (mapKeys l).Nodup) :
    l.filter (fun p => p.1 == x.1) = [x] := by
  induction l with
  | nil => cases hx
  | cons p t ih =>
    unfold mapKeys at hnd
    rw [List.map_cons, List.nodup_cons] at hnd
    rcases List.mem_cons.mp hx with rfl | hxt
    · rw [List.filter_cons, if_pos (by simp)]
      have hnilf : t.filter (fun p => p.1 == x.1) = [] := by
        rw [List.filter_eq_nil_iff]
        intro a ha hc
        exact hnd.1 (by
          have hax : a.1 = x.1 := by simpa using hc
          rw [← hax]
          exact List.mem_map.mpr ⟨a, ha, rfl⟩)
      rw [hnilf]
    · have hpx : (p.1 == x.1) = false := by
        have hxk : x.1 ∈ List.map Prod.fst t := List.mem_map.mpr ⟨x, hxt, rfl⟩
        have hne : p.1 ≠ x.1 := fun e => hnd.1 (e ▸ hxk)
        simpa using hne
      rw [List.filter_cons, hpx]
      simp only [Bool.false_eq_true, if_false]
      exact ih hxt hnd.2

/-! ### Retry loop lemmas -/

theorem withRetryGo_all_fail {T : Type} (op : Nat → Except OpError T)
    (factor maxDelay : Nat) (e : Nat → OpError)
    (hfail : ∀ i, op i = Except.error (e i)) :
    ∀ (remaining attempt delay : Nat),
      (withRetryGo op factor maxDelay attempt remaining delay).1
          = RetryOutcome.exhausted (e (attempt + remaining)) ∧
      (withRetryGo op factor maxDelay attempt remaining delay).2.length = remaining := by
  intro remaining
  induction remaining with
  | zero =>
    intro attempt delay
    rw [withRetryGo, hfail attempt]
    exact ⟨rfl, rfl⟩
  | succ r ih =>
    intro attempt delay
    rw [withRetryGo, hfail attempt]
    obtain ⟨h1, h2⟩ := ih (attempt + 1) (min (delay * factor) maxDelay)
    rw [show attempt + (r + 1) = attempt + 1 + r by omega]
    exact ⟨h1, by simpa using h2⟩

theorem withRetryGo_success {T : Type} (op : Nat → Except OpError T)
    (factor maxDelay : Nat) (v : T) (hfac : 1 ≤ factor) :
    ∀ (n attempt remaining delay : Nat),
      (∀ i, i < n → ∃ er, op (attempt + i) = Except.error er) →
      op (attempt + n) = Except.ok v →
      n ≤ remaining → delay ≤ maxDelay →
      (withRetryGo op factor maxDelay attempt remaining delay).1 = RetryOutcome.success v ∧
      (withRetryGo op factor maxDelay attempt remaining delay).2.length = n ∧
      (withRetryGo op factor maxDelay attempt remaining delay).2.Chain' (· ≤ ·) ∧
      (∀ d ∈ (withRetryGo op factor maxDelay attempt remaining delay).2, d ≤ maxDelay) ∧
      ((withRetryGo op factor maxDelay attempt remaining delay).2 = [] ∨
        ∃ tl, (withRetryGo op factor maxDelay attempt remaining delay).2 = delay :: tl) := by
  intro n
  induction n with
  | zero =>
    intro attempt remaining delay _ hsucc _ _
    rw [Nat.add_zero] at hsucc
    rw [withRetryGo, hsucc]
    exact ⟨rfl, rfl, List.chain'_nil, by simp, Or.inl rfl⟩
  | succ m ih =>
    intro attempt remaining delay hfail hsucc hle hdel
    obtain ⟨er, her⟩ := hfail 0 (Nat.succ_pos m)
    rw [Nat.add_zero] at her
    rcases remaining with _ | r
    · omega
    rw [withRetryGo, her]
    have hfail2 : ∀ i, i < m → ∃ er2, op (attempt + 1 + i) = Except.error er2 := by
      intro i hi
      have := hfail (i + 1) (by omega)
      rwa [show attempt + (i + 1) = attempt + 1 + i by omega] at this
    have hsucc2 : op (attempt + 1 + m) = Except.ok v := by
      rwa [show attempt + (m + 1) = attempt + 1 + m by omega] at hsucc
    have hmin : min (delay * factor) maxDelay ≤ maxDelay := Nat.min_le_right _ _
    obtain ⟨h1, h2, h3, h4, h5⟩ :=
      ih (attempt + 1) r (min (delay * factor) maxDelay) hfail2 hsucc2 (by omega) hmin
    refine ⟨by simpa using h1, by simpa using h2, ?_, ?_, ?_⟩
    · show List.Chain' (· ≤ ·)
        (delay :: (withRetryGo op factor maxDelay (attempt + 1) r (min (delay * factor) maxDelay)).2)
      refine List.chain'_cons'.mpr ⟨?_, h3⟩
      intro y hy
      rcases h5 with h5 | ⟨tl, h5⟩
      · rw [h5] at hy; cases hy
      · rw [h5] at hy
        simp only [List.head?_cons, Option.mem_def, Option.some.injEq] at hy
        subst hy
        exact Nat.le_min.mpr
          ⟨Nat.le_mul_of_pos_right delay (by omega), hdel⟩
    · intro d hd
      simp only at hd
      rcases List.mem_cons.mp hd with rfl | hd2
      · exact hdel
      · exact h4 d hd2
    · exact Or.inr ⟨_, rfl⟩

/-! ### Claim theorems -/

/-- C10: a health-monitor tick over an idle window (zero requests and zero
cache accesses) computes error rate 0 and cache hit rate 1, so the status of
an idle window is always `healthy` — never `degraded` or `unhealthy`. -/
theorem checkHealth_idle_window_healthy :
    HealthMonitor.errorRateOf 0 0 = 0 ∧
    HealthMonitor.cacheHitRateOf 0 0 = 1 ∧
    HealthMonitor.checkHealth 0 0 0 0 = HStatus.healthy ∧
    HealthMonitor.checkHealth 0 0 0 0 ≠ HStatus.degraded ∧
    HealthMonitor.checkHealth 0 0 0 0 ≠ HStatus.unhealthy := by
  have h : HealthMonitor.checkHealth 0 0 0 0 = HStatus.healthy := by
    unfold HealthMonitor.checkHealth HealthMonitor.determineStatus
      HealthMonitor.errorRateOf HealthMonitor.cacheHitRateOf
    norm_num
  refine ⟨rfl, rfl, h, ?_, ?_⟩ <;> rw [h] <;> intro hc <;> cases hc

/-- C6 counterexample: with TTL `T = 100`, a value inserted at time 0 is
still returned (not reported as a miss) by a read at time exactly `T` after
insertion, because the expiry test `Date.now() > entry.expiresAt` is strict;
this falsifies the claim that every read at time `t ≥ T` is a miss. -/
theorem cacheGet_ttl_boundary_cex :
    (Cache.get (Cache.set ⟨100, 10⟩ ([] : List (String × CacheEntry Nat)) 0 "k" 42) 100 "k").1
        = some 42 ∧
    ¬ (Cache.get (Cache.set ⟨100, 10⟩ ([] : List (String × CacheEntry Nat)) 0 "k" 42) 100 "k").1
        = none := by
  refine ⟨?_, ?_⟩ <;> decide

/-- C6 (amended): a value set with TTL `T` at time `s` is returned unchanged
by every read at time `s + t` with `t ≤ T`, and every read at `s + t` with
`t > T` reports a miss and lazily deletes the entry. (The expiry comparison
is strict, so the boundary read at `t = T` is still a hit.) -/
theorem cacheGet_ttl_spec {T : Type} (cfg : CacheConfig)
    (entries : List (String × CacheEntry T)) (s t : Nat) (k : String) (v : T) :
    (t ≤ cfg.ttl →
      (Cache.get (Cache.set cfg entries s k v) (s + t) k).1 = some v) ∧
    (cfg.ttl < t →
      (Cache.get (Cache.set cfg entries s k v) (s + t) k).1 = none ∧
      mapGet (Cache.get (Cache.set cfg entries s k v) (s + t) k).2 k = none) := by
  have hget : mapGet (Cache.set cfg entries s k v) k = some ⟨v, s + cfg.ttl⟩ := by
    unfold Cache.set
    exact mapGet_mapSet_self _ _ _
  constructor
  · intro hle
    unfold Cache.get
    rw [hget]
    have hnlt : ¬ ((⟨v, s + cfg.ttl⟩ : CacheEntry T).expiresAt < s + t) := by
      simp only [not_lt]
      omega
    dsimp only
    rw [if_neg hnlt]
  · intro hlt
    unfold Cache.get
    rw [hget]
    have hplt : (⟨v, s + cfg.ttl⟩ : CacheEntry T).expiresAt < s + t := by
      show s + cfg.ttl < s + t
      omega
    dsimp only
    rw [if_pos hplt]
    exact ⟨rfl, mapGet_mapDelete_self _ _⟩

/-- Witness for C6 (amended): with TTL 100, a read 100 ms after insertion
still returns the value, and a read 101 ms after insertion misses. -/
theorem cacheGet_ttl_spec_witness :
    (Cache.get (Cache.set ⟨100, 10⟩ ([] : List (String × CacheEntry Nat)) 0 "k" 42) (0 + 100) "k").1
        = some 42 ∧
    (Cache.get (Cache.set ⟨100, 10⟩ ([] : List (String × CacheEntry Nat)) 0 "k" 42) (0 + 101) "k").1
        = none :=
  ⟨(cacheGet_ttl_spec ⟨100, 10⟩ [] 0 100 "k" 42).1 (by decide),
   ((cacheGet_ttl_spec ⟨100, 10⟩ [] 0 101 "k" 42).2 (by decide)).1⟩

/-- C7: inserting a fresh key into a cache that holds exactly its maximum
number of entries evicts exactly one entry — an entry whose expiry is
earliest among all entries — keeps every other entry, and the new entry is
present afterward. -/
theorem cacheSet_eviction {T : Type} (cfg : CacheConfig)
    (entries : List (String × CacheEntry T)) (now : Nat) (k : String) (v : T)
    (hfull : entries.length = cfg.maxSize) (hpos : 1 ≤ cfg.maxSize)
    (hfresh : mapGet entries k = none)
    (hkeys : (mapKeys entries).Nodup) :
    ∃ victim, victim ∈ entries ∧
      (∀ p ∈ entries, victim.2.expiresAt ≤ p.2.expiresAt) ∧
      Cache.set cfg entries now k v
        = entries.filter (fun p => !(p.1 == victim.1)) ++ [(k, ⟨v, now + cfg.ttl⟩)] ∧
      entries.filter (fun p => p.1 == victim.1) = [victim] ∧
      mapGet (Cache.set cfg entries now k v) k = some ⟨v, now + cfg.ttl⟩ := by
  rcases entries with _ | ⟨e, es⟩
  · exfalso
    rw [List.length_nil] at hfull
    omega
  · refine ⟨Cache.oldestEntry e es, ?_, Cache.oldestEntry_le e es, ?_, ?_, ?_⟩
    · rcases Cache.oldestEntry_mem e es with h | h
      · rw [h]; exact List.mem_cons_self e es
      · exact List.mem_cons_of_mem e h
    · unfold Cache.set
      rw [if_pos (le_of_eq hfull.symm)]
      exact mapSet_eq_append _ _ _ (mapGet_filter_none _ _ _ hfresh)
    · exact filter_key_singleton _ _
        (by
          rcases Cache.oldestEntry_mem e es with h | h
          · rw [h]; exact List.mem_cons_self e es
          · exact List.mem_cons_of_mem e h) hkeys
    · unfold Cache.set
      rw [if_pos (le_of_eq hfull.symm)]
      exact mapGet_mapSet_self _ _ _

/-- Witness for C7: at capacity 2, inserting key "c" evicts exactly the entry
"b" (earliest expiry 30), keeps "a", and "c" is present afterward. -/
theorem cacheSet_eviction_witness :
    ∃ victim, victim ∈ [("a", (⟨1, 50⟩ : CacheEntry Nat)), ("b", ⟨2, 30⟩)] ∧
      (∀ p ∈ [("a", (⟨1, 50⟩ : CacheEntry Nat)), ("b", ⟨2, 30⟩)],
        victim.2.expiresAt ≤ p.2.expiresAt) ∧
      Cache.set ⟨100, 2⟩ [("a", (⟨1, 50⟩ : CacheEntry Nat)), ("b", ⟨2, 30⟩)] 0 "c" 3
        = [("a", (⟨1, 50⟩ : CacheEntry Nat)), ("b", ⟨2, 30⟩)].filter
            (fun p => !(p.1 == victim.1)) ++ [("c", ⟨3, 0 + 100⟩)] ∧
      [("a", (⟨1, 50⟩ : CacheEntry Nat)), ("b", ⟨2, 30⟩)].filter
          (fun p => p.1 == victim.1) = [victim] ∧
      mapGet (Cache.set ⟨100, 2⟩ [("a", (⟨1, 50⟩ : CacheEntry Nat)), ("b", ⟨2, 30⟩)] 0 "c" 3) "c"
        = some ⟨3, 0 + 100⟩ :=
  cacheSet_eviction ⟨100, 2⟩ [("a", ⟨1, 50⟩), ("b", ⟨2, 30⟩)] 0 "c" 3
    (by decide) (by decide) (by decide) (by decide)

/-- C4 counterexample: a status-400 failure is non-retryable by the code's
own classifier `isRetryableError`, yet `withRetry` does not propagate it
immediately — it waits one backoff delay (1000 ms) and performs a further
attempt, returning that attempt's success. -/
theorem withRetry_nonretryable_cex :
    isRetryableError ⟨true, some 400⟩ = false ∧
    withRetry (fun i => if i = 0 then Except.error ⟨true, some 400⟩ else Except.ok 7)
        DEFAULT_RETRY_CONFIG = (RetryOutcome.success 7, [1000]) ∧
    (withRetry (fun i => if i = 0 then Except.error ⟨true, some 400⟩ else Except.ok 7)
        DEFAULT_RETRY_CONFIG).2 ≠ [] := by
  refine ⟨?_, ?_, ?_⟩ <;> decide

/-- C4 (amended): `withRetry` never consults retryability: every failure,
whether or not its status is in the policy's retryable set, is retried after
a backoff delay; a persistent failure is propagated only after
`maxRetries + 1` attempts, wrapped as a retry-exhausted error carrying the
last attempt's error, with `maxRetries` delays awaited. -/
theorem withRetry_retries_every_failure {T : Type} (op : Nat → Except OpError T)
    (cfg : RetryConfigR) (e : Nat → OpError)
    (hfail : ∀ i, op i = Except.error (e i)) :
    (withRetry op cfg).1 = RetryOutcome.exhausted (e cfg.maxRetries) ∧
    (withRetry op cfg).2.length = cfg.maxRetries := by
  obtain ⟨h1, h2⟩ := withRetryGo_all_fail op cfg.backoffFactor cfg.maxDelay e hfail
    cfg.maxRetries 0 cfg.initialDelay
  rw [Nat.zero_add] at h1
  exact ⟨h1, h2⟩

/-- Witness for C4 (amended): an operation always failing with the
non-retryable status 400 is retried twice under the default policy and only
then wrapped as a retry-exhausted error. -/
theorem withRetry_retries_every_failure_witness :
    (withRetry (fun _ => (Except.error ⟨true, some 400⟩ : Except OpError Nat))
        DEFAULT_RETRY_CONFIG).1 = RetryOutcome.exhausted ⟨true, some 400⟩ ∧
    (withRetry (fun _ => (Except.error ⟨true, some 400⟩ : Except OpError Nat))
        DEFAULT_RETRY_CONFIG).2.length = DEFAULT_RETRY_CONFIG.maxRetries :=
  withRetry_retries_every_failure (fun _ => Except.error ⟨true, some 400⟩)
    DEFAULT_RETRY_CONFIG (fun _ => ⟨true, some 400⟩) (fun _ => rfl)

/-- C8: an operation that fails with a retryable status on each of its first
`N` attempts and succeeds on attempt `N + 1` (with `N` at most the configured
`maxRetries`) makes `withRetry` return the success value; the delays awaited
between attempts are non-decreasing and each is at most the configured
`maxDelay` (assuming the policy is well-formed: `initialDelay ≤ maxDelay` and
`backoffFactor ≥ 1`, as all policies in the repository are). -/
theorem withRetry_retryable_then_success {T : Type} (op : Nat → Except OpError T)
    (cfg : RetryConfigR) (v : T) (N : Nat)
    (hN : N ≤ cfg.maxRetries)
    (hfail : ∀ i, i < N →
      ∃ er s, op i = Except.error er ∧ er.status = some s ∧ s ∈ cfg.retryableStatuses)
    (hsucc : op N = Except.ok v)
    (hinit : cfg.initialDelay ≤ cfg.maxDelay)
    (hfac : 1 ≤ cfg.backoffFactor) :
    (withRetry op cfg).1 = RetryOutcome.success v ∧
    (withRetry op cfg).2.length = N ∧
    (withRetry op cfg).2.Chain' (· ≤ ·) ∧
    ∀ d ∈ (withRetry op cfg).2, d ≤ cfg.maxDelay := by
  have hfail2 : ∀ i, i < N → ∃ er, op (0 + i) = Except.error er := by
    intro i hi
    obtain ⟨er, _, her, _, _⟩ := hfail i hi
    exact ⟨er, by rwa [Nat.zero_add]⟩
  have hsucc2 : op (0 + N) = Except.ok v := by rwa [Nat.zero_add]
  obtain ⟨h1, h2, h3, h4, _⟩ := withRetryGo_success op cfg.backoffFactor cfg.maxDelay v hfac
    N 0 cfg.maxRetries cfg.initialDelay hfail2 hsucc2 hN hinit
  exact ⟨h1, h2, h3, h4⟩

/-- Witness for C8: one retryable 429 failure followed by success returns the
success value under the default policy, with one delay of 1000 ms ≤ 5000. -/
theorem withRetry_retryable_then_success_witness :
    (withRetry (fun i => if i = 0 then Except.error ⟨true, some 429⟩ else Except.ok 5)
        DEFAULT_RETRY_CONFIG).1 = RetryOutcome.success 5 ∧
    (withRetry (fun i => if i = 0 then Except.error ⟨true, some 429⟩ else Except.ok 5)
        DEFAULT_RETRY_CONFIG).2.length = 1 ∧
    (withRetry (fun i => if i = 0 then Except.error ⟨true, some 429⟩ else Except.ok 5)
        DEFAULT_RETRY_CONFIG).2.Chain' (· ≤ ·) ∧
    ∀ d ∈ (withRetry (fun i => if i = 0 then Except.error ⟨true, some 429⟩ else Except.ok 5)
        DEFAULT_RETRY_CONFIG).2, d ≤ DEFAULT_RETRY_CONFIG.maxDelay :=
  withRetry_retryable_then_success
    (fun i => if i = 0 then Except.error ⟨true, some 429⟩ else Except.ok 5)
    DEFAULT_RETRY_CONFIG 5 1 (by decide)
    (fun i hi => by
      match i, hi with
      | 0, _ => exact ⟨⟨true, some 429⟩, 429, rfl, rfl, by decide⟩)
    rfl (by decide) (by decide)

/-- C3: for a conversation whose cached shipping-mode list is non-empty,
`fixDeliveryModeCode` returns the requested code unchanged when some cached
mode's code equals it exactly; otherwise it returns the code of the first
cached mode whose lowercased code starts with the token of the lowercased
requested code before the first separator, or whose lowercased name contains
that token; and when no mode matches, the first cached mode's code. -/
theorem fixDeliveryModeCode_spec (modes : List (String × List DeliveryMode))
    (conversationId requestedCode : String) (m0 : DeliveryMode)
    (rest : List DeliveryMode)
    (hmodes : mapGet modes conversationId = some (m0 :: rest)) :
    ((∃ m ∈ m0 :: rest, m.code = requestedCode) →
      ChatService.fixDeliveryModeCode modes conversationId requestedCode
        = requestedCode) ∧
    ((¬ ∃ m ∈ m0 :: rest, m.code = requestedCode) →
      (∀ m, (m0 :: rest).find? (fun m =>
            strStartsWith (strLower m.code) (headToken (strLower requestedCode)) ||
            strIncludes (strLower m.name) (headToken (strLower requestedCode)))
          = some m →
        ChatService.fixDeliveryModeCode modes conversationId requestedCode = m.code) ∧
      ((m0 :: rest).find? (fun m =>
            strStartsWith (strLower m.code) (headToken (strLower requestedCode)) ||
            strIncludes (strLower m.name) (headToken (strLower requestedCode)))
          = none →
        ChatService.fixDeliveryModeCode modes conversationId requestedCode
          = m0.code)) := by
  have hexact : ((m0 :: rest).find? (fun m => m.code == requestedCode)).isSome
      ↔ ∃ m ∈ m0 :: rest, m.code = requestedCode := by
    rw [List.find?_isSome]
    constructor
    · rintro ⟨x, hx, he⟩
      exact ⟨x, hx, by simpa using he⟩
    · rintro ⟨x, hx, he⟩
      exact ⟨x, hx, by simpa using he⟩
  unfold ChatService.fixDeliveryModeCode
  rw [hmodes]
  dsimp only
  refine ⟨?_, ?_⟩
  · intro hex
    rw [if_pos (hexact.mpr hex)]
  · intro hnex
    have hfalse : ((m0 :: rest).find? (fun m => m.code == requestedCode)).isSome = false := by
      cases hs : ((m0 :: rest).find? (fun m => m.code == requestedCode)).isSome
      · rfl
      · exact absurd (hexact.mp hs) hnex
    rw [if_neg (by simp [hfalse])]
    constructor
    · intro m hfind
      rw [hfind]
    · intro hfind
      rw [hfind]

/-- Witness for C3: with cached modes `standard-gross`, `premium-gross` and
requested code `standard-net`, the corrected code is `standard-gross`. -/
theorem fixDeliveryModeCode_spec_witness :
    ChatService.fixDeliveryModeCode
        [("c1", [⟨"standard-gross", "Standard"⟩, ⟨"premium-gross", "Premium"⟩])]
        "c1" "standard-net" = "standard-gross" :=
  ((fixDeliveryModeCode_spec
      [("c1", [⟨"standard-gross", "Standard"⟩, ⟨"premium-gross", "Premium"⟩])]
      "c1" "standard-net" ⟨"standard-gross", "Standard"⟩
      [⟨"premium-gross", "Premium"⟩] (by decide)).2 (by decide)).1
    ⟨"standard-gross", "Standard"⟩ (by decide)

/-- The place-order case of `executeMCPTools`: whenever a cart id resolves
(truthily) from the model input or the stored map, the conversation's cart
binding is deleted, whatever the backend returns. -/
theorem execTool_placeOrder_clears (oracle : Nat → MCPResult)
    (conversationId : String) (st : ChatService.ChatState) (ctr : Nat)
    (tc : LLMToolCall) (hname : tc.name = "place-order")
    (hres : jsTruthyStr (jsOrStr tc.input.cartId (mapGet st.carts conversationId)) = true) :
    mapGet (ChatService.execTool oracle conversationId st ctr tc).st.carts conversationId
      = none := by
  unfold ChatService.execTool
  rw [hname]
  have hk : ChatService.toolKind "place-order" = ChatService.ToolKind.placeOrder := by decide
  rw [hk]
  dsimp only
  rw [if_pos hres]
  exact mapGet_mapDelete_self _ _

/-- C9: executing the place-order tool with a resolved cart id always deletes
the conversation's stored cart binding afterwards — for every backend result,
error-flagged ones included — so a later place-order or cart operation in the
same conversation cannot resolve that cart id from the conversation state. -/
theorem placeOrder_always_clears_cart (oracle : Nat → MCPResult)
    (conversationId : String) (st : ChatService.ChatState) (ctr : Nat)
    (tc : LLMToolCall) (hname : tc.name = "place-order")
    (hres : jsTruthyStr (jsOrStr tc.input.cartId (mapGet st.carts conversationId)) = true) :
    mapGet (ChatService.execTool oracle conversationId st ctr tc).st.carts conversationId
      = none :=
  execTool_placeOrder_clears oracle conversationId st ctr tc hname hres

/-- Witness for C9: with stored cart id `cart1` and a backend answering with
an error-flagged result, place-order still clears the conversation's cart. -/
theorem placeOrder_always_clears_cart_witness :
    mapGet (ChatService.execTool
        (fun _ => { content := some { asStr := "Internal Server Error" }, isError := true })
        "c" { carts := [("c", "cart1")] } 0 ⟨"po1", "place-order", {}⟩).st.carts "c"
      = none :=
  placeOrder_always_clears_cart
    (fun _ => { content := some { asStr := "Internal Server Error" }, isError := true })
    "c" { carts := [("c", "cart1")] } 0 ⟨"po1", "place-order", {}⟩ rfl (by decide)

/-- Each `executeMCPTools` case changes the conversation's cart map only by
leaving it alone, deleting the conversation's binding, or setting it. -/
theorem execTool_carts_cases (oracle : Nat → MCPResult) (conversationId : String)
    (st : ChatService.ChatState) (ctr : Nat) (tc : LLMToolCall) :
    (ChatService.execTool oracle conversationId st ctr tc).st.carts = st.carts ∨
    (ChatService.execTool oracle conversationId st ctr tc).st.carts
        = mapDelete st.carts conversationId ∨
    ∃ x, (ChatService.execTool oracle conversationId st ctr tc).st.carts
        = mapSet st.carts conversationId x := by
  unfold ChatService.execTool
  cases hk : ChatService.toolKind tc.name <;> dsimp only <;>
    (repeat' split) <;>
    first
      | exact Or.inl rfl
      | exact Or.inr (Or.inl rfl)
      | exact Or.inr (Or.inr ⟨_, rfl⟩)

/-- C2: (a) after a place-order execution (in particular a successful one)
for a conversation holding a stored cart id, that binding is cleared; (b) a
subsequent add-to-cart with no model-supplied cart id and no stored cart
issues a create-cart call and stores and uses the id returned by it, rather
than any previously cleared id; (c) every execution step preserves "at most
one cart binding per conversation", so a conversation never holds more than
one active cart id. -/
theorem cart_reuse_invariant (conversationId : String) :
    (∀ (oracle : Nat → MCPResult) (st : ChatService.ChatState) (ctr : Nat)
        (tc : LLMToolCall) (cid0 : String),
      tc.name = "place-order" → (oracle ctr).isError = false →
      mapGet st.carts conversationId = some cid0 → cid0 ≠ "" →
      mapGet (ChatService.execTool oracle conversationId st ctr tc).st.carts conversationId
        = none) ∧
    (∀ (oracle : Nat → MCPResult) (st : ChatService.ChatState) (ctr : Nat)
        (tc : LLMToolCall) (c : MCPContent) (cid : String),
      tc.name = "add-to-cart" → tc.input.cartId = none →
      mapGet st.carts conversationId = none →
      (oracle ctr).content = some c → c.cartIdField = some cid →
      (ChatService.execTool oracle conversationId st ctr tc).calls
          = [{ name := "create-cart" },
             { name := "add-to-cart", cartId := some cid,
               productCode := tc.input.productCode,
               quantity := some (jsOrOne tc.input.quantity) }] ∧
      mapGet (ChatService.execTool oracle conversationId st ctr tc).st.carts conversationId
        = some cid) ∧
    (∀ (oracle : Nat → MCPResult) (st : ChatService.ChatState) (ctr : Nat)
        (tc : LLMToolCall),
      (∀ c, (mapKeys st.carts).count c ≤ 1) →
      ∀ c, (mapKeys (ChatService.execTool oracle conversationId st ctr tc).st.carts).count c
        ≤ 1) := by
  refine ⟨?_, ?_, ?_⟩
  · intro oracle st ctr tc cid0 hname _ hstore hne
    apply execTool_placeOrder_clears oracle conversationId st ctr tc hname
    unfold jsOrStr
    cases ht : jsTruthyStr tc.input.cartId
    · rw [if_neg (by simp)]
      rw [hstore]
      unfold jsTruthyStr
      simpa using hne
    · rw [if_pos rfl]
      exact ht
  · intro oracle st ctr tc c cid hname hinput hmap horacle hfield
    unfold ChatService.execTool
    rw [hname]
    have hk : ChatService.toolKind "add-to-cart" = ChatService.ToolKind.addToCart := by
      decide
    rw [hk]
    dsimp only
    rw [hinput, hmap]
    have hfalsy : jsTruthyStr (jsOrStr none none) = false := by decide
    rw [if_neg (by simp [hfalsy])]
    rw [horacle]
    dsimp only
    rw [hfield]
    exact ⟨rfl, mapGet_mapSet_self _ _ _⟩
  · intro oracle st ctr tc hinv c
    rcases execTool_carts_cases oracle conversationId st ctr tc with h | h | ⟨x, h⟩
    · rw [h]; exact hinv c
    · rw [h]; exact le_trans (count_mapKeys_mapDelete_le _ _ _) (hinv c)
    · rw [h]; exact count_mapKeys_mapSet_le _ _ _ _ (hinv c)

/-- Oracle for the C2 witness: call 0 answers place-order successfully, call
1 answers create-cart with cart id `cart-new`, later calls succeed. -/
def c2oracle : Nat → MCPResult := fun n =>
  if n = 0 then { content := some { asStr := "order placed" }, isError := false }
  else if n = 1 then
    { content := some { asStr := "cart created", cartIdField := some "cart-new" }
      isError := false }
  else { content := some { asStr := "added" }, isError := false }

/-- Witness for C2: placing the order clears `cart-old`; the follow-up
add-to-cart issues create-cart and stores and uses `cart-new`; the singleton
cart map keeps at most one binding per conversation. -/
theorem cart_reuse_invariant_witness :
    mapGet (ChatService.execTool c2oracle "c" { carts := [("c", "cart-old")] } 0
        ⟨"t1", "place-order", {}⟩).st.carts "c" = none ∧
    ((ChatService.execTool c2oracle "c" {} 1
        ⟨"t2", "add-to-cart", { productCode := some "ACME-100" }⟩).calls
        = [{ name := "create-cart" },
           { name := "add-to-cart", cartId := some "cart-new",
             productCode := some "ACME-100", quantity := some 1 }] ∧
      mapGet (ChatService.execTool c2oracle "c" {} 1
        ⟨"t2", "add-to-cart", { productCode := some "ACME-100" }⟩).st.carts "c"
        = some "cart-new") ∧
    ∀ c, (mapKeys (ChatService.execTool c2oracle "c"
        { carts := [("c", "cart-old")] } 0 ⟨"t1", "place-order", {}⟩).st.carts).count c
      ≤ 1 := by
  obtain ⟨h1, h2, h3⟩ := cart_reuse_invariant "c"
  refine ⟨h1 c2oracle { carts := [("c", "cart-old")] } 0 ⟨"t1", "place-order", {}⟩
      "cart-old" rfl (by decide) (by decide) (by decide),
    ?_, ?_⟩
  · have := h2 c2oracle {} 1 ⟨"t2", "add-to-cart", { productCode := some "ACME-100" }⟩
      { asStr := "cart created", cartIdField := some "cart-new" } "cart-new"
      rfl rfl (by decide) (by decide) (by decide)
    exact this
  · exact h3 c2oracle { carts := [("c", "cart-old")] } 0 ⟨"t1", "place-order", {}⟩
      (fun c => le_trans (List.count_le_length c _) (by decide))

/-- Backend model for C5: every call fails with a 401-signature payload. -/
def c5oracle : Nat → MCPResult := fun _ =>
  { content := some { asStr := "Request failed with status code 401" }
    isError := true }

/-- Second-provider model for C5: replies with a fixed summary text. -/
def c5provider2 : List LLMToolCall → List ExecResult → ChatService.AIResponse :=
  fun _ _ => ⟨"Here is the summary", []⟩

/-- First provider response for C5: a single order-status tool call. -/
def c5ai : ChatService.AIResponse := ⟨"", [⟨"t1", "get-order-status", {}⟩]⟩

/-- C5 counterexample: a turn whose only tool call yields an error-flagged
result containing "401" does not short-circuit to a fixed response: the
pushed tool result is replaced by the re-auth payload, yet the turn's
returned message is the provider's second-call text, not the fixed
session-expired response. -/
theorem reauth_no_shortcircuit_cex :
    (ChatService.handleChatMessage c5oracle c5provider2 "c" {} c5ai).results
        = [⟨"t1", ExecPayload.reauth⟩] ∧
    (ChatService.handleChatMessage c5oracle c5provider2 "c" {} c5ai).message
        = "Here is the summary" ∧
    ¬ (ChatService.handleChatMessage c5oracle c5provider2 "c" {} c5ai).message
        = ChatService.sessionExpiredMessage := by
  refine ⟨?_, ?_, ?_⟩ <;> decide

/-- C5 (amended): a 401/Unauthorized error-flagged tool result does not
abandon the turn: the result entry is replaced by the fixed re-auth payload
(the session-expired message plus the machine-readable `requiresReauth`
flag), execution continues, and the turn's reply is still the completion
provider's second response (with the empty-reply placeholder), not a fixed
response. -/
theorem reauth_replaces_result_only (oracle : Nat → MCPResult)
    (provider2 : List LLMToolCall → List ExecResult → ChatService.AIResponse)
    (conversationId : String) (st : ChatService.ChatState)
    (ai : ChatService.AIResponse) (h : ai.toolCalls ≠ []) :
    (∀ callId r, r.isError = true → ChatService.isAuthFailure r = true →
      ChatService.finishToolResult callId r = ⟨callId, ExecPayload.reauth⟩) ∧
    (ChatService.handleChatMessage oracle provider2 conversationId st ai).message
      = (if (provider2
              (ChatService.handleChatMessage oracle provider2 conversationId st ai).toolCalls
              (ChatService.handleChatMessage oracle provider2 conversationId st ai).results).content
            = ""
         then ChatService.processingPlaceholder
         else (provider2
              (ChatService.handleChatMessage oracle provider2 conversationId st ai).toolCalls
              (ChatService.handleChatMessage oracle provider2 conversationId st ai).results).content) := by
  constructor
  · intro callId r h1 h2
    unfold ChatService.finishToolResult
    rw [if_pos (by rw [h1, h2]; rfl)]
  · rcases hai : ai.toolCalls with _ | ⟨a, l⟩
    · exact absurd hai h
    · simp only [ChatService.handleChatMessage, hai]

/-- Witness for C5 (amended): at the concrete 401 turn, the pushed result is
the fixed re-auth entry and the reply is the provider's text. -/
theorem reauth_replaces_result_only_witness :
    ChatService.finishToolResult "t1"
        { content := some { asStr := "Request failed with status code 401" }
          isError := true }
      = ⟨"t1", ExecPayload.reauth⟩ ∧
    (ChatService.handleChatMessage c5oracle c5provider2 "c" {} c5ai).message
      = (if (c5provider2
              (ChatService.handleChatMessage c5oracle c5provider2 "c" {} c5ai).toolCalls
              (ChatService.handleChatMessage c5oracle c5provider2 "c" {} c5ai).results).content
            = ""
         then ChatService.processingPlaceholder
         else (c5provider2
              (ChatService.handleChatMessage c5oracle c5provider2 "c" {} c5ai).toolCalls
              (ChatService.handleChatMessage c5oracle c5provider2 "c" {} c5ai).results).content) :=
  ⟨(reauth_replaces_result_only c5oracle c5provider2 "c" {} c5ai (by decide)).1 "t1"
      { content := some { asStr := "Request failed with status code 401" }, isError := true }
      rfl (by decide),
   (reauth_replaces_result_only c5oracle c5provider2 "c" {} c5ai (by decide)).2⟩

/-! ### Lemmas about `executeMCPTools` used by the chaining claim -/

theorem finishToolResult_id (callId : String) (r : MCPResult) :
    (ChatService.finishToolResult callId r).tool_use_id = callId := by
  unfold ChatService.finishToolResult
  split <;> rfl

theorem hasError_finishToolResult (callId : String) (r : MCPResult) :
    hasError (ChatService.finishToolResult callId r) = false := by
  unfold ChatService.finishToolResult
  split <;> rfl

theorem execTool_res_id (oracle : Nat → MCPResult) (conversationId : String)
    (st : ChatService.ChatState) (ctr : Nat) (tc : LLMToolCall) :
    (ChatService.execTool oracle conversationId st ctr tc).res.tool_use_id = tc.id := by
  unfold ChatService.execTool
  cases hk : ChatService.toolKind tc.name <;> dsimp only <;> (repeat' split) <;>
    first
      | rfl
      | exact finishToolResult_id _ _

theorem execTool_hasError_of_ne (oracle : Nat → MCPResult) (conversationId : String)
    (st : ChatService.ChatState) (ctr : Nat) (tc : LLMToolCall)
    (h : ChatService.toolKind tc.name ≠ ChatService.ToolKind.addToCart) :
    hasError (ChatService.execTool oracle conversationId st ctr tc).res = false := by
  unfold ChatService.execTool
  cases hk : ChatService.toolKind tc.name <;>
    first
      | exact absurd hk h
      | (dsimp only <;> (repeat' split) <;>
          first
            | exact hasError_finishToolResult _ _
            | rfl)

theorem executeMCPTools_ids (oracle : Nat → MCPResult) (conversationId : String) :
    ∀ (tcs : List LLMToolCall) (st : ChatService.ChatState) (ctr : Nat),
      (ChatService.executeMCPTools oracle conversationId st ctr tcs).results.map
          ExecResult.tool_use_id
        = tcs.map LLMToolCall.id := by
  intro tcs
  induction tcs with
  | nil => intro st ctr; rfl
  | cons tc rest ih =>
    intro st ctr
    rw [ChatService.executeMCPTools]
    dsimp only
    rw [List.map_cons, List.map_cons, execTool_res_id, ih]

theorem executeMCPTools_results_shape (oracle : Nat → MCPResult) (conversationId : String) :
    ∀ (tcs : List LLMToolCall) (st : ChatService.ChatState) (ctr : Nat),
      ∀ r ∈ (ChatService.executeMCPTools oracle conversationId st ctr tcs).results,
        ∃ tc ∈ tcs, r.tool_use_id = tc.id ∧
          (ChatService.toolKind tc.name ≠ ChatService.ToolKind.addToCart →
            hasError r = false) := by
  intro tcs
  induction tcs with
  | nil =>
    intro st ctr r hr
    cases hr
  | cons tc rest ih =>
    intro st ctr r hr
    rw [ChatService.executeMCPTools] at hr
    dsimp only at hr
    rcases List.mem_cons.mp hr with rfl | hr2
    · refine ⟨tc, List.mem_cons_self _ _, execTool_res_id _ _ _ _ _, ?_⟩
      intro hne
      exact execTool_hasError_of_ne _ _ _ _ _ hne
    · obtain ⟨tc2, htc2, hid, herr⟩ := ih _ _ r hr2
      exact ⟨tc2, List.mem_cons_of_mem _ htc2, hid, herr⟩

theorem executeMCPTools_singleton (oracle : Nat → MCPResult) (conversationId : String)
    (st : ChatService.ChatState) (ctr : Nat) (tc : LLMToolCall) :
    ChatService.executeMCPTools oracle conversationId st ctr [tc]
      = ⟨(ChatService.execTool oracle conversationId st ctr tc).st,
         (ChatService.execTool oracle conversationId st ctr tc).ctr,
         (ChatService.execTool oracle conversationId st ctr tc).calls,
         [(ChatService.execTool oracle conversationId st ctr tc).res]⟩ := by
  rw [ChatService.executeMCPTools, ChatService.executeMCPTools]
  rw [List.append_nil]

theorem execTool_getDeliveryModes (oracle : Nat → MCPResult) (conversationId : String)
    (st : ChatService.ChatState) (ctr : Nat) (tc : LLMToolCall)
    (hname : tc.name = "get-delivery-modes") :
    ChatService.execTool oracle conversationId st ctr tc
      = ⟨(if (oracle ctr).isError then st
          else { st with modes := (ChatService.storeDeliveryModes conversationId st.modes
              [(oracle ctr).content]) }),
         ctr + 1,
         [{ name := "get-delivery-modes", cartId := mapGet st.carts conversationId }],
         ChatService.finishToolResult tc.id (oracle ctr)⟩ := by
  unfold ChatService.execTool
  rw [hname]
  rw [show ChatService.toolKind "get-delivery-modes"
      = ChatService.ToolKind.getDeliveryModes from by decide]

theorem handleChatMessage_cons (oracle : Nat → MCPResult)
    (provider2 : List LLMToolCall → List ExecResult → ChatService.AIResponse)
    (conversationId : String) (st : ChatService.ChatState)
    (ai : ChatService.AIResponse) (a : LLMToolCall) (l : List LLMToolCall)
    (hai : ai.toolCalls = a :: l) :
    ChatService.handleChatMessage oracle provider2 conversationId st ai
      = (let acc1 : ChatService.TurnAcc :=
           { toolCalls := ai.toolCalls
             results := (ChatService.executeMCPTools oracle conversationId st 0 ai.toolCalls).results
             toolsUsed := ai.toolCalls.map LLMToolCall.name
             st := (ChatService.executeMCPTools oracle conversationId st 0 ai.toolCalls).st
             ctr := (ChatService.executeMCPTools oracle conversationId st 0 ai.toolCalls).ctr
             calls := (ChatService.executeMCPTools oracle conversationId st 0 ai.toolCalls).calls }
         let acc3 := ChatService.addressChainStage oracle conversationId
           (ChatService.paymentChainStage oracle conversationId acc1)
         { message := if (provider2 acc3.toolCalls acc3.results).content = ""
             then ChatService.processingPlaceholder
             else (provider2 acc3.toolCalls acc3.results).content
           toolsUsed := acc3.toolsUsed, toolCalls := acc3.toolCalls
           st := acc3.st, ctr := acc3.ctr, calls := acc3.calls
           results := acc3.results }) := by
  unfold ChatService.handleChatMessage
  rw [hai]

theorem paymentChainStage_cases (oracle : Nat → MCPResult) (conversationId : String)
    (acc : ChatService.TurnAcc) :
    ChatService.paymentChainStage oracle conversationId acc = acc ∨
    ChatService.paymentChainStage oracle conversationId acc
      = { toolCalls := acc.toolCalls
            ++ [{ id := ChatService.autoPlaceOrderId, name := "place-order" }]
          results := acc.results
            ++ (ChatService.executeMCPTools oracle conversationId acc.st acc.ctr
                [{ id := ChatService.autoPlaceOrderId, name := "place-order" }]).results
          toolsUsed := acc.toolsUsed ++ ["place-order"]
          st := (ChatService.executeMCPTools oracle conversationId acc.st acc.ctr
              [{ id := ChatService.autoPlaceOrderId, name := "place-order" }]).st
          ctr := (ChatService.executeMCPTools oracle conversationId acc.st acc.ctr
              [{ id := ChatService.autoPlaceOrderId, name := "place-order" }]).ctr
          calls := acc.calls
            ++ (ChatService.executeMCPTools oracle conversationId acc.st acc.ctr
                [{ id := ChatService.autoPlaceOrderId, name := "place-order" }]).calls } := by
  unfold ChatService.paymentChainStage
  (repeat' split) <;> first | exact Or.inl rfl | exact Or.inr rfl

theorem addressChainStage_fires (oracle : Nat → MCPResult) (conversationId : String)
    (acc : ChatService.TurnAcc) (r0 : ExecResult)
    (hfind : acc.results.find? (fun r =>
        acc.toolCalls.any (fun tc =>
          tc.id == r.tool_use_id && tc.name == "set-delivery-address")) = some r0)
    (hcontains : acc.toolsUsed.contains "set-delivery-address" = true)
    (hok : hasError r0 = false) :
    ChatService.addressChainStage oracle conversationId acc
      = { toolCalls := acc.toolCalls
            ++ [{ id := ChatService.autoDeliveryModesId, name := "get-delivery-modes" }]
          results := acc.results
            ++ (ChatService.executeMCPTools oracle conversationId acc.st acc.ctr
                [{ id := ChatService.autoDeliveryModesId, name := "get-delivery-modes" }]).results
          toolsUsed := acc.toolsUsed ++ ["get-delivery-modes"]
          st := { (ChatService.executeMCPTools oracle conversationId acc.st acc.ctr
                [{ id := ChatService.autoDeliveryModesId, name := "get-delivery-modes" }]).st with
              modes := (ChatService.storeDeliveryModes conversationId
                (ChatService.executeMCPTools oracle conversationId acc.st acc.ctr
                  [{ id := ChatService.autoDeliveryModesId, name := "get-delivery-modes" }]).st.modes
                ((ChatService.executeMCPTools oracle conversationId acc.st acc.ctr
                  [{ id := ChatService.autoDeliveryModesId, name := "get-delivery-modes" }]).results.map
                  ChatService.resultContent)) }
          ctr := (ChatService.executeMCPTools oracle conversationId acc.st acc.ctr
              [{ id := ChatService.autoDeliveryModesId, name := "get-delivery-modes" }]).ctr
          calls := acc.calls
            ++ (ChatService.executeMCPTools oracle conversationId acc.st acc.ctr
                [{ id := ChatService.autoDeliveryModesId, name := "get-delivery-modes" }]).calls } := by
  unfold ChatService.addressChainStage
  rw [if_pos hcontains, hfind]
  dsimp only
  rw [if_neg (by simp [hok])]

/-- If some result matches the chain's search predicate and every matching
result is error-free, the `find?` of the chain succeeds with an error-free
result. -/
theorem find_chain_result (results : List ExecResult) (p : ExecResult → Bool)
    (hexists : ∃ r ∈ results, p r = true)
    (hgood : ∀ r ∈ results, p r = true → hasError r = false) :
    ∃ r0, results.find? p = some r0 ∧ hasError r0 = false := by
  have hsome : (results.find? p).isSome = true := List.find?_isSome.mpr hexists
  rcases hfind : results.find? p with _ | r0
  · rw [hfind] at hsome
    cases hsome
  · exact ⟨r0, rfl, hgood r0 (List.mem_of_find?_eq_some hfind) (List.find?_some hfind)⟩

theorem storeDeliveryModes_single (conversationId : String)
    (modes : List (String × List DeliveryMode)) (co : MCPContent)
    (dms : List DeliveryMode) (hfield : co.deliveryModesField = some dms) :
    ChatService.storeDeliveryModes conversationId modes [some co]
      = mapSet modes conversationId dms := by
  unfold ChatService.storeDeliveryModes
  dsimp [List.foldl]
  rw [hfield]

/-- C1: in every turn whose model-requested tool calls include a
set-delivery-address call (ids distinct and distinct from the auto-chain
ids), a get-delivery-modes call is executed within the same turn after all
the model-requested tool executions — it is the turn's last MCP call — even
when the completion provider requested no further tool call; its result is
the turn's last pushed result, and whenever that result carries a
delivery-mode list, that list is stored as the conversation's cached
shipping modes. (In the model a set-delivery-address execution never
produces an `error`-carrying entry — `MCPClient.callTool` does not throw —
so the chain's success test, the absence of an `error` field on the matched
result, is established inside the proof rather than assumed.) -/
theorem setDeliveryAddress_chaining (oracle : Nat → MCPResult)
    (provider2 : List LLMToolCall → List ExecResult → ChatService.AIResponse)
    (conversationId : String) (st : ChatService.ChatState)
    (ai : ChatService.AIResponse)
    (hnodup : (ai.toolCalls.map LLMToolCall.id).Nodup)
    (hauto : ∀ tc ∈ ai.toolCalls,
      tc.id ≠ ChatService.autoPlaceOrderId ∧ tc.id ≠ ChatService.autoDeliveryModesId)
    (haddr : ∃ tc ∈ ai.toolCalls, tc.name = "set-delivery-address") :
    (∃ tail, (ChatService.handleChatMessage oracle provider2 conversationId st ai).toolsUsed
        = ai.toolCalls.map LLMToolCall.name ++ tail ∧ "get-delivery-modes" ∈ tail) ∧
    (∃ cid, (ChatService.handleChatMessage oracle provider2 conversationId st ai).calls.getLast?
        = some { name := "get-delivery-modes", cartId := cid }) ∧
    (∃ r, (ChatService.handleChatMessage oracle provider2 conversationId st ai).results.getLast?
          = some r ∧
      r.tool_use_id = ChatService.autoDeliveryModesId ∧
      ∀ co dms, r.payload = ExecPayload.normal (some co) →
        co.deliveryModesField = some dms →
        mapGet (ChatService.handleChatMessage oracle provider2 conversationId st ai).st.modes
            conversationId = some dms) := by
  obtain ⟨tc0, htc0, hname0⟩ := haddr
  rcases hai : ai.toolCalls with _ | ⟨a, l⟩
  · rw [hai] at htc0
    cases htc0
  rw [handleChatMessage_cons oracle provider2 conversationId st ai a l hai]
  dsimp only
  set acc1 : ChatService.TurnAcc :=
    { toolCalls := ai.toolCalls
      results := (ChatService.executeMCPTools oracle conversationId st 0 ai.toolCalls).results
      toolsUsed := ai.toolCalls.map LLMToolCall.name
      st := (ChatService.executeMCPTools oracle conversationId st 0 ai.toolCalls).st
      ctr := (ChatService.executeMCPTools oracle conversationId st 0 ai.toolCalls).ctr
      calls := (ChatService.executeMCPTools oracle conversationId st 0 ai.toolCalls).calls }
    with hacc1
  set acc2 := ChatService.paymentChainStage oracle conversationId acc1 with hacc2
  have hsplit := paymentChainStage_cases oracle conversationId acc1
  rw [← hacc2] at hsplit
  obtain ⟨Y, Z, X, hTC2, hRES2, hTU2, hY, hZ⟩ :
      ∃ (Y : List LLMToolCall) (Z : List ExecResult) (X : List String),
        acc2.toolCalls = ai.toolCalls ++ Y ∧
        acc2.results
          = (ChatService.executeMCPTools oracle conversationId st 0 ai.toolCalls).results ++ Z ∧
        acc2.toolsUsed = ai.toolCalls.map LLMToolCall.name ++ X ∧
        (∀ tc ∈ Y, tc.name = "place-order") ∧
        (∀ r ∈ Z, r.tool_use_id = ChatService.autoPlaceOrderId) := by
    rcases hsplit with h | h
    · refine ⟨[], [], [], ?_, ?_, ?_, ?_, ?_⟩ <;> simp [h, hacc1]
    · refine ⟨[{ id := ChatService.autoPlaceOrderId, name := "place-order" }],
        (ChatService.executeMCPTools oracle conversationId acc1.st acc1.ctr
          [{ id := ChatService.autoPlaceOrderId, name := "place-order" }]).results,
        ["place-order"], ?_, ?_, ?_, ?_, ?_⟩
      · rw [h]
      · rw [h]
      · rw [h]
      · intro tc htc
        rw [List.mem_singleton] at htc
        rw [htc]
      · intro r hr
        have hmm : r.tool_use_id ∈ (ChatService.executeMCPTools oracle conversationId
            acc1.st acc1.ctr
            [{ id := ChatService.autoPlaceOrderId, name := "place-order" }]).results.map
              ExecResult.tool_use_id :=
          List.mem_map_of_mem _ hr
        rw [executeMCPTools_ids] at hmm
        simpa using hmm
  have hcontains : acc2.toolsUsed.contains "set-delivery-address" = true := by
    apply List.elem_eq_true_of_mem
    rw [hTU2]
    exact List.mem_append_left _ (List.mem_map.mpr ⟨tc0, htc0, hname0⟩)
  have hexists : ∃ rr ∈ acc2.results, (fun r => acc2.toolCalls.any (fun tc =>
      tc.id == r.tool_use_id && tc.name == "set-delivery-address")) rr = true := by
    have hmm : tc0.id ∈ (ChatService.executeMCPTools oracle conversationId st 0
        ai.toolCalls).results.map ExecResult.tool_use_id := by
      rw [executeMCPTools_ids]
      exact List.mem_map.mpr ⟨tc0, htc0, rfl⟩
    obtain ⟨rr, hrrmem, hrrid⟩ := List.mem_map.mp hmm
    refine ⟨rr, ?_, ?_⟩
    · rw [hRES2]
      exact List.mem_append_left _ hrrmem
    · apply List.any_eq_true.mpr
      refine ⟨tc0, ?_, ?_⟩
      · rw [hTC2]
        exact List.mem_append_left _ htc0
      · rw [hrrid, hname0]
        simp
  have hgood : ∀ r ∈ acc2.results, (fun r => acc2.toolCalls.any (fun tc =>
      tc.id == r.tool_use_id && tc.name == "set-delivery-address")) r = true →
      hasError r = false := by
    intro r hr hp
    obtain ⟨tcx, htcx, hx⟩ := List.any_eq_true.mp hp
    rw [Bool.and_eq_true] at hx
    have hid : tcx.id = r.tool_use_id := by simpa using hx.1
    have hnm : tcx.name = "set-delivery-address" := by simpa using hx.2
    rw [hTC2] at htcx
    rcases List.mem_append.mp htcx with htcx1 | htcx2
    · rw [hRES2] at hr
      rcases List.mem_append.mp hr with hr1 | hr2
      · obtain ⟨tcy, htcy, hidy, hgoody⟩ :=
          executeMCPTools_results_shape oracle conversationId ai.toolCalls st 0 r hr1
        have hxy : tcx = tcy :=
          List.inj_on_of_nodup_map hnodup htcx1 htcy (by rw [hid, hidy])
        apply hgoody
        rw [← hxy, hnm]
        decide
      · exact absurd (hid.trans (hZ r hr2)) ((hauto tcx htcx1).1)
    · have hpo := hY tcx htcx2
      rw [hpo] at hnm
      exact absurd hnm (by decide)
  obtain ⟨r0, hfind, hok⟩ := find_chain_result acc2.results
    (fun r => acc2.toolCalls.any (fun tc =>
      tc.id == r.tool_use_id && tc.name == "set-delivery-address")) hexists hgood
  rw [addressChainStage_fires oracle conversationId acc2 r0 hfind hcontains hok]
  have hstep := execTool_getDeliveryModes oracle conversationId acc2.st acc2.ctr
    { id := ChatService.autoDeliveryModesId, name := "get-delivery-modes" } rfl
  rw [executeMCPTools_singleton, hstep]
  dsimp only
  refine ⟨⟨X ++ ["get-delivery-modes"], ?_, ?_⟩,
    ⟨mapGet acc2.st.carts conversationId, ?_⟩,
    ⟨ChatService.finishToolResult ChatService.autoDeliveryModesId (oracle acc2.ctr),
      ?_, finishToolResult_id _ _, ?_⟩⟩
  · rw [hTU2, List.append_assoc, hai]
  · exact List.mem_append_right _ (List.mem_singleton.mpr rfl)
  · exact List.getLast?_concat _
  · exact List.getLast?_concat _
  · intro co dms hpay hfield
    have hrc : ChatService.resultContent
        (ChatService.finishToolResult ChatService.autoDeliveryModesId (oracle acc2.ctr))
        = some co := by
      unfold ChatService.resultContent
      rw [hpay]
    rw [List.map_cons, List.map_nil, hrc,
      storeDeliveryModes_single conversationId _ co dms hfield]
    exact mapGet_mapSet_self _ _ _

/-- Backend model for the C1 witness: call 0 (set-delivery-address) succeeds;
call 1 (the chained get-delivery-modes) returns one delivery mode. -/
def c1oracle : Nat → MCPResult := fun n =>
  if n = 0 then { content := some { asStr := "address set" }, isError := false }
  else
    { content := some ⟨"modes", none, some [⟨"standard-gross", "Standard"⟩]⟩
      isError := false }

/-- Second-provider model for the C1 witness: a reply with no tool calls. -/
def c1provider2 : List LLMToolCall → List ExecResult → ChatService.AIResponse :=
  fun _ _ => ⟨"Shipping options", []⟩

/-- First provider response for the C1 witness: only a set-delivery-address
call — no further tool call requested. -/
def c1ai : ChatService.AIResponse := ⟨"", [⟨"t1", "set-delivery-address", {}⟩]⟩

/-- Witness for C1: in the concrete turn whose only model-requested call is
set-delivery-address, get-delivery-modes is chained as the turn's last MCP
call and its returned delivery-mode list is stored for the conversation. -/
theorem setDeliveryAddress_chaining_witness :
    (∃ tail, (ChatService.handleChatMessage c1oracle c1provider2 "c1"
          { carts := [("c1", "cart9")] } c1ai).toolsUsed
        = c1ai.toolCalls.map LLMToolCall.name ++ tail ∧ "get-delivery-modes" ∈ tail) ∧
    (∃ cid, (ChatService.handleChatMessage c1oracle c1provider2 "c1"
          { carts := [("c1", "cart9")] } c1ai).calls.getLast?
        = some { name := "get-delivery-modes", cartId := cid }) ∧
    (∃ r, (ChatService.handleChatMessage c1oracle c1provider2 "c1"
          { carts := [("c1", "cart9")] } c1ai).results.getLast? = some r ∧
      r.tool_use_id = ChatService.autoDeliveryModesId ∧
      ∀ co dms, r.payload = ExecPayload.normal (some co) →
        co.deliveryModesField = some dms →
        mapGet (ChatService.handleChatMessage c1oracle c1provider2 "c1"
            { carts := [("c1", "cart9")] } c1ai).st.modes "c1" = some dms) :=
  setDeliveryAddress_chaining c1oracle c1provider2 "c1" { carts := [("c1", "cart9")] }
    c1ai (by decide) (by decide) ⟨⟨"t1", "set-delivery-address", {}⟩, by decide, rfl⟩
